import Mathlib

/-!
Shallow embedding of the `tw_ai_agents` multi-agent service, together with
theorems checking its natural-language specification.

The embedding covers:
* the list reducers `custom_add` and `custom_add_with_None` from
  `agents/message_types/base_message_type.py`;
* the agent-name normalization and the two handoff-tool factories from
  `agents/handoff.py` and `graph_creator_router_supervisor.py`;
* the sibling-name uniqueness check of `CaseAgent.get_graph`;
* the router entry node and its dispatch condition from
  `agents/router_entrypoint.py`;
* the supervisor re-driving loops of the two `GraphRunner.run_supervisor`
  variants (`agents/graph_runner.py`, uncapped, and
  `agents/graph_creator_router_supervisor.py`, capped at 5);
* the tool-call extraction `GraphRunner._extract_tool_calls`;
* the `/agent_response` handler dispatch from `server.py`;
* the administrative `reset_state` from `db/state_manager.py`.
-/

namespace TwAgents

/-! ## Reducers (`base_message_type.py`) -/

/-- One step of the loop body of `custom_add`:
`if b_item not in a: a.append(b_item)`. -/
def customAddStep {α : Type} [DecidableEq α] (acc : List α) (x : α) : List α :=
  if x ∈ acc then acc else acc ++ [x]

/-- `custom_add(a, b)`: append each item of `b` not already present in the
accumulator, in order. -/
def custom_add {α : Type} [DecidableEq α] (a b : List α) : List α :=
  b.foldl customAddStep a

/-- One step of the loop body of `custom_add_with_None`:
`if b_item not in a: a.append(b_item)  elif b_item is None: a.pop()`.
`Option α` models the nullable entries; `none` models Python's `None`,
and `List.dropLast` models `list.pop()` of the last element. -/
def customAddWithNoneStep {α : Type} [DecidableEq α]
    (acc : List (Option α)) (x : Option α) : List (Option α) :=
  if x ∈ acc then
    (if x = none then acc.dropLast else acc)
  else acc ++ [x]

/-- `custom_add_with_None(a, b)` from `base_message_type.py`. -/
def custom_add_with_None {α : Type} [DecidableEq α]
    (a b : List (Option α)) : List (Option α) :=
  b.foldl customAddWithNoneStep a

/-- `list.pop()` with the underflow made explicit: popping from the empty
list is Python's `IndexError`, modelled as `none`. -/
def popChecked {α : Type} (l : List (Option α)) : Option (List (Option α)) :=
  match l with
  | [] => none
  | _ :: _ => some l.dropLast

/-- `custom_add_with_None` with every `pop` checked for underflow: the
result is `none` exactly when some execution of the pop branch runs on an
empty accumulator (Python's `IndexError`). -/
def custom_add_with_None_checked {α : Type} [DecidableEq α] :
    List (Option α) → List (Option α) → Option (List (Option α))
  | acc, [] => some acc
  | acc, x :: rest =>
    if x ∈ acc then
      (if x = none then
        (popChecked acc).bind
          (fun acc2 => custom_add_with_None_checked acc2 rest)
      else custom_add_with_None_checked acc rest)
    else custom_add_with_None_checked (acc ++ [x]) rest

/- Sanity checks on concrete inputs. -/
example : custom_add [1, 2] [2, 3, 3] = [1, 2, 3] := by decide
example : custom_add_with_None ([] : List (Option Nat)) [none] = [none] := by decide
example : custom_add_with_None [some 1, none] [none] = [some 1] := by decide

/-- Modelled from the spec: the `message_from_supervisor` reducer as the spec
describes it — "appends new entries but a `null` entry pops the previous
entry", i.e. a `none` delta entry always pops and is never appended. This
definition follows the spec's words; `custom_add_with_None` follows the
source. They are compared in the C4 theorems. -/
def nullPopSpecReducer {α : Type} [DecidableEq α]
    (a b : List (Option α)) : List (Option α) :=
  b.foldl (fun acc x =>
    match x with
    | none => acc.dropLast
    | some v => if some v ∈ acc then acc else acc ++ [some v]) a

theorem mem_customAddStep_self {α : Type} [DecidableEq α]
    (acc : List α) (x : α) : x ∈ customAddStep acc x := by
  unfold customAddStep
  split
  · assumption
  · exact List.mem_append_right _ (List.mem_singleton.mpr rfl)

theorem mem_customAddStep_of_mem {α : Type} [DecidableEq α]
    {acc : List α} {y : α} (x : α) (hy : y ∈ acc) : y ∈ customAddStep acc x := by
  unfold customAddStep
  split
  · exact hy
  · exact List.mem_append_left _ hy

theorem mem_custom_add_of_mem_left {α : Type} [DecidableEq α]
    {a : List α} {y : α} (b : List α) (hy : y ∈ a) : y ∈ custom_add a b := by
  induction b generalizing a with
  | nil => exact hy
  | cons x xs ih => exact ih (mem_customAddStep_of_mem x hy)

theorem mem_custom_add_of_mem_right {α : Type} [DecidableEq α]
    {b : List α} {x : α} (a : List α) (hx : x ∈ b) : x ∈ custom_add a b := by
  induction b generalizing a with
  | nil => cases hx
  | cons y ys ih =>
    rcases List.mem_cons.mp hx with h | h
    · subst h
      exact mem_custom_add_of_mem_left ys (mem_customAddStep_self a x)
    · exact ih _ h

theorem custom_add_eq_self_of_subset {α : Type} [DecidableEq α]
    {a b : List α} (h : ∀ x ∈ b, x ∈ a) : custom_add a b = a := by
  induction b with
  | nil => rfl
  | cons x xs ih =>
    have hx : x ∈ a := h x (List.mem_cons_self x xs)
    have hstep : customAddStep a x = a := by
      unfold customAddStep
      exact if_pos hx
    show custom_add (customAddStep a x) xs = a
    rw [hstep]
    exact ih (fun y hy => h y (List.mem_cons_of_mem x hy))

theorem custom_add_idem {α : Type} [DecidableEq α] (a b : List α) :
    custom_add (custom_add a b) b = custom_add a b :=
  custom_add_eq_self_of_subset (fun _ hx => mem_custom_add_of_mem_right a hx)

theorem custom_add_with_None_eq_custom_add {α : Type} [DecidableEq α]
    {b : List (Option α)} (a : List (Option α)) (hb : none ∉ b) :
    custom_add_with_None a b = custom_add a b := by
  induction b generalizing a with
  | nil => rfl
  | cons x xs ih =>
    have hx : x ≠ none := fun h => hb (h ▸ List.mem_cons_self x xs)
    have hxs : none ∉ xs := fun h => hb (List.mem_cons_of_mem x h)
    have hstep : customAddWithNoneStep a x = customAddStep a x := by
      unfold customAddWithNoneStep customAddStep
      by_cases hmem : x ∈ a
      · rw [if_pos hmem, if_pos hmem, if_neg hx]
      · rw [if_neg hmem, if_neg hmem]
    show custom_add_with_None (customAddWithNoneStep a x) xs
        = custom_add (customAddStep a x) xs
    rw [hstep]
    exact ih _ hxs

theorem popChecked_of_ne_nil {α : Type} {l : List (Option α)} (h : l ≠ []) :
    popChecked l = some l.dropLast := by
  cases l with
  | nil => exact absurd rfl h
  | cons x xs => rfl

theorem customAddWithNoneStep_pop {α : Type} [DecidableEq α]
    {acc : List (Option α)} (h : none ∈ acc) :
    customAddWithNoneStep acc none = acc.dropLast := by
  unfold customAddWithNoneStep
  rw [if_pos h, if_pos rfl]

theorem customAddWithNoneStep_skip {α : Type} [DecidableEq α]
    {acc : List (Option α)} {x : Option α} (h : x ∈ acc) (hx : x ≠ none) :
    customAddWithNoneStep acc x = acc := by
  unfold customAddWithNoneStep
  rw [if_pos h, if_neg hx]

theorem customAddWithNoneStep_append {α : Type} [DecidableEq α]
    {acc : List (Option α)} {x : Option α} (h : x ∉ acc) :
    customAddWithNoneStep acc x = acc ++ [x] := by
  unfold customAddWithNoneStep
  rw [if_neg h]

theorem custom_add_with_None_cons {α : Type} [DecidableEq α]
    (a : List (Option α)) (x : Option α) (rest : List (Option α)) :
    custom_add_with_None a (x :: rest)
      = custom_add_with_None (customAddWithNoneStep a x) rest := rfl

theorem custom_add_with_None_append_one {α : Type} [DecidableEq α]
    (a b : List (Option α)) (x : Option α) :
    custom_add_with_None a (b ++ [x])
      = customAddWithNoneStep (custom_add_with_None a b) x := by
  unfold custom_add_with_None
  rw [List.foldl_append]
  rfl

/-- Claim C8 (confirmed): evaluating `custom_add_with_None` never pops from an
empty accumulator — the checked variant, in which a pop on the empty list is
the explicit error `none`, always succeeds and agrees with the plain
function. The pop branch requires `none ∈ acc`, which forces the accumulator
to be non-empty, so no index-underflow error is ever raised. -/
theorem custom_add_with_None_never_underflows {α : Type} [DecidableEq α]
    (a b : List (Option α)) :
    custom_add_with_None_checked a b = some (custom_add_with_None a b) := by
  induction b generalizing a with
  | nil => rfl
  | cons x xs ih =>
    rw [custom_add_with_None_cons]
    by_cases hmem : x ∈ a
    · by_cases hx : x = none
      · subst hx
        have hne : a ≠ [] := List.ne_nil_of_mem hmem
        rw [custom_add_with_None_checked, if_pos hmem, if_pos rfl,
          popChecked_of_ne_nil hne, Option.some_bind,
          customAddWithNoneStep_pop hmem]
        exact ih _
      · rw [custom_add_with_None_checked, if_pos hmem, if_neg hx,
          customAddWithNoneStep_skip hmem hx]
        exact ih _
    · rw [custom_add_with_None_checked, if_neg hmem,
        customAddWithNoneStep_append hmem]
      exact ih _

/-- Claim C2, counterexample: merging the delta `[None]` twice into the empty
`message_from_supervisor` accumulator is not idempotent — the first merge
appends `None`, the second merge finds `None` present and pops, yielding `[]`
instead of `[None]`. -/
theorem custom_add_with_None_not_idempotent_cex :
    custom_add_with_None
        (custom_add_with_None ([] : List (Option Nat)) [none]) [none]
      ≠ custom_add_with_None ([] : List (Option Nat)) [none] := by decide

/-- Claim C2 (corrected): merging the same delta twice is idempotent for
`custom_add` (the `tools_called`/`messages` reducer) on every pair of lists,
and for `custom_add_with_None` (the `message_from_supervisor` reducer)
whenever the delta contains no `None` entry; with `None` entries in the delta
the second merge can pop (see the counterexample). -/
theorem reducers_idempotent_amended {α : Type} [DecidableEq α]
    (a b : List α) (a2 b2 : List (Option α)) (h : none ∉ b2) :
    custom_add (custom_add a b) b = custom_add a b ∧
    custom_add_with_None (custom_add_with_None a2 b2) b2
      = custom_add_with_None a2 b2 := by
  refine ⟨custom_add_idem a b, ?_⟩
  rw [custom_add_with_None_eq_custom_add a2 h,
    custom_add_with_None_eq_custom_add _ h]
  exact custom_add_idem a2 b2

/-- Claim C2, witness: the amended idempotence at concrete inputs. -/
theorem reducers_idempotent_amended_witness :
    custom_add (custom_add [1] [2, 2]) [2, 2] = custom_add [1] [2, 2] ∧
    custom_add_with_None (custom_add_with_None [some 1] [some 2]) [some 2]
      = custom_add_with_None [some 1] [some 2] :=
  reducers_idempotent_amended [1] [2, 2] [some 1] [some 2] (by decide)

/-- Claim C4, counterexample: a `None` delta entry is appended, not popped,
when `None` is not already in the accumulator: on accumulator `[some 1]` the
source reducer yields `[some 1, none]`, while the spec's always-pop reducer
yields `[]`. -/
theorem null_entry_appended_cex :
    custom_add_with_None ([some 1] : List (Option Nat)) [none]
        = [some 1, none] ∧
    nullPopSpecReducer ([some 1] : List (Option Nat)) [none] = [] ∧
    custom_add_with_None ([some 1] : List (Option Nat)) [none]
      ≠ nullPopSpecReducer ([some 1] : List (Option Nat)) [none] := by decide

/-- Claim C4 (corrected): processing one more delta entry `x` after delta `b`,
the reducer appends `x` when it is not already present (this includes `None`
entries not yet present), pops the most recent accumulated entry when `x` is
`None` and `None` is already present, and skips a non-`None` duplicate. -/
theorem custom_add_with_None_delta_behavior {α : Type} [DecidableEq α]
    (a b : List (Option α)) (x : Option α) :
    (x ∉ custom_add_with_None a b →
      custom_add_with_None a (b ++ [x]) = custom_add_with_None a b ++ [x]) ∧
    (none ∈ custom_add_with_None a b →
      custom_add_with_None a (b ++ [none])
        = (custom_add_with_None a b).dropLast) ∧
    (x ∈ custom_add_with_None a b → x ≠ none →
      custom_add_with_None a (b ++ [x]) = custom_add_with_None a b) := by
  refine ⟨fun h => ?_, fun h => ?_, fun h hx => ?_⟩
  · rw [custom_add_with_None_append_one, customAddWithNoneStep_append h]
  · rw [custom_add_with_None_append_one, customAddWithNoneStep_pop h]
  · rw [custom_add_with_None_append_one, customAddWithNoneStep_skip h hx]

/-- Claim C4, witness: the amended per-entry behavior at concrete inputs. -/
theorem custom_add_with_None_delta_behavior_witness :
    custom_add_with_None ([some 1] : List (Option Nat)) ([none] ++ [none])
      = (custom_add_with_None ([some 1] : List (Option Nat)) [none]).dropLast :=
  (custom_add_with_None_delta_behavior [some 1] [none] none).2.1 (by decide)

/-! ## Agent-name normalization and handoff tools (`handoff.py`,
`graph_creator_router_supervisor.py`) -/

/-- Python's `\s` on the characters these agent names use: space, tab,
newline, carriage return, vertical tab (11) and form feed (12). -/
def pyIsSpace (c : Char) : Bool :=
  c == ' ' || c == '\t' || c == '\n' || c == '\r'
    || c.toNat == 11 || c.toNat == 12

/-- `str.strip()`: drop leading and trailing whitespace. -/
def pyStrip (l : List Char) : List Char :=
  ((l.dropWhile pyIsSpace).reverse.dropWhile pyIsSpace).reverse

/-- `WHITESPACE_RE.sub("_", s)` fused with the final `.lower()`: each maximal
whitespace run becomes one underscore, every other character is lowercased
(`'_'` is unchanged by `.lower()`, so fusing the two passes is sound). The
flag records whether the previous character was part of a whitespace run. -/
def subWsLower : List Char → Bool → List Char
  | [], _ => []
  | c :: rest, prevWs =>
    if pyIsSpace c then
      (if prevWs then subWsLower rest true else '_' :: subWsLower rest true)
    else c.toLower :: subWsLower rest false

/-- `_normalize_agent_name` from `handoff.py`:
`WHITESPACE_RE.sub("_", agent_name.strip()).lower()`. -/
def _normalize_agent_name (agent_name : String) : String :=
  ⟨subWsLower (pyStrip agent_name.data) false⟩

/- Sanity checks. -/
example : _normalize_agent_name "  Billing  Support " = "billing_support" := by decide
example : _normalize_agent_name "My Agent" = "my_agent" := by decide

/-- A LangChain tool as far as these claims observe it: its registered name
and the description shown to the LLM. -/
structure ToolSpec where
  name : String
  description : String
deriving DecidableEq

def SUBAGENT_TOOL_NAME_PREFIX : String := "transfer_to_"

def SUBAGENT_TOOL_NAME_SUFFIX : String := "_agent"

/-- `create_handoff_tool` from `handoff.py`:
`tool_name = f"transfer_to_{_normalize_agent_name(agent_name)}"` and the
description is the `agent_description` passed verbatim to `@tool`. -/
def create_handoff_tool (agent_name agent_description : String) : ToolSpec :=
  { name := "transfer_to_" ++ _normalize_agent_name agent_name,
    description := agent_description }

/-- `Supervisor.create_handoff_tool_to_router_node` from
`graph_creator_router_supervisor.py`: prefix + normalized name + suffix. -/
def create_handoff_tool_to_router_node
    (agent_name agent_description : String) : ToolSpec :=
  { name := SUBAGENT_TOOL_NAME_PREFIX ++ _normalize_agent_name agent_name
      ++ SUBAGENT_TOOL_NAME_SUFFIX,
    description := agent_description }

/-- Claim C6, counterexample: `create_handoff_tool` (the factory used by
`CaseAgent.get_graph` in `graph_creator_router_supervisor.py`) produces the
name `transfer_to_my_agent` for target `"My Agent"` — without the `_agent`
suffix the claim requires of the handoff tool factory. -/
theorem handoff_tool_no_suffix_cex :
    (create_handoff_tool "My Agent" "d").name = "transfer_to_my_agent" ∧
    (create_handoff_tool "My Agent" "d").name
      ≠ SUBAGENT_TOOL_NAME_PREFIX ++ _normalize_agent_name "My Agent"
          ++ SUBAGENT_TOOL_NAME_SUFFIX := by decide

/-- Claim C6 (corrected): the router-node handoff factory
`create_handoff_tool_to_router_node` names its tool
`transfer_to_` + normalized name + `_agent`, while the plain
`create_handoff_tool` of `handoff.py` names its tool
`transfer_to_` + normalized name with no suffix; both give the tool exactly
the description they were passed, and normalization strips the name,
collapses internal whitespace runs to single underscores, and lowercases. -/
theorem handoff_tool_names (n d : String) :
    (create_handoff_tool_to_router_node n d).name
        = "transfer_to_" ++ _normalize_agent_name n ++ "_agent" ∧
    (create_handoff_tool_to_router_node n d).description = d ∧
    (create_handoff_tool n d).name = "transfer_to_" ++ _normalize_agent_name n ∧
    (create_handoff_tool n d).description = d ∧
    _normalize_agent_name n
      = ⟨subWsLower (pyStrip n.data) false⟩ :=
  ⟨rfl, rfl, rfl, rfl, rfl⟩

/-! ## Sibling-name uniqueness check (`CaseAgent.get_graph`) -/

/-- The name-validation loop of `CaseAgent.get_graph`
(`graph_creator_router_supervisor.py`, lines 152-165): iterate over the
processed agents' names; raise for a missing name or the reserved
`"LangGraph"`, raise for a name already seen, otherwise add the name to the
seen set. `seen` models the `agent_names` set. -/
def checkAgentNames : List (Option String) → List String → Except String Unit
  | [], _ => Except.ok ()
  | none :: _, _ =>
    Except.error "Please specify a name when you create your agent"
  | some n :: rest, seen =>
    if n = "LangGraph" then
      Except.error "Please specify a name when you create your agent"
    else if n ∈ seen then
      Except.error ("Agent with name '" ++ n
        ++ "' already exists. Agent names must be unique.")
    else checkAgentNames rest (n :: seen)

/-- The whole check as `get_graph` runs it, starting from the empty set. -/
def agentNamesOk (names : List (Option String)) : Except String Unit :=
  checkAgentNames names []

theorem checkAgentNames_ok_iff (names : List (Option String)) :
    ∀ seen : List String,
      (checkAgentNames names seen = Except.ok () ↔
        (∀ x ∈ names, x ≠ none ∧ x ≠ some "LangGraph") ∧ names.Nodup ∧
          (∀ n : String, some n ∈ names → n ∉ seen)) := by
  induction names with
  | nil =>
    intro seen
    simp [checkAgentNames]
  | cons x rest ih =>
    intro seen
    cases x with
    | none =>
      simp only [checkAgentNames]
      constructor
      · intro h; cases h
      · rintro ⟨hvalid, -, -⟩
        exact absurd rfl (hvalid none (List.mem_cons_self _ _)).1
    | some n =>
      by_cases hlg : n = "LangGraph"
      · subst hlg
        simp only [checkAgentNames, if_pos rfl]
        constructor
        · intro h; cases h
        · rintro ⟨hvalid, -, -⟩
          exact absurd rfl (hvalid (some "LangGraph")
            (List.mem_cons_self _ _)).2
      · by_cases hseen : n ∈ seen
        · simp only [checkAgentNames, if_neg hlg, if_pos hseen]
          constructor
          · intro h; cases h
          · rintro ⟨-, -, hdisj⟩
            exact absurd hseen (hdisj n (List.mem_cons_self _ _))
        · simp only [checkAgentNames, if_neg hlg, if_neg hseen]
          rw [ih (n :: seen)]
          constructor
          · rintro ⟨hvalid, hnd, hdisj⟩
            refine ⟨?_, ?_, ?_⟩
            · intro x hx
              rcases List.mem_cons.mp hx with h | h
              · subst h
                exact ⟨Option.some_ne_none n, by simpa using hlg⟩
              · exact hvalid x h
            · refine List.nodup_cons.mpr ⟨?_, hnd⟩
              intro hmem
              exact hdisj n hmem (List.mem_cons_self n seen)
            · intro m hm
              rcases List.mem_cons.mp hm with h | h
              · rw [Option.some_inj.mp h]
                exact hseen
              · intro hmseen
                exact hdisj m h (List.mem_cons_of_mem n hmseen)
          · rintro ⟨hvalid, hnd, hdisj⟩
            have hndc := List.nodup_cons.mp hnd
            refine ⟨?_, hndc.2, ?_⟩
            · intro x hx
              exact hvalid x (List.mem_cons_of_mem _ hx)
            · intro m hm hmns
              rcases List.mem_cons.mp hmns with h | h
              · subst h
                exact hndc.1 hm
              · exact hdisj m (List.mem_cons_of_mem _ hm) h

/-- Claim C5, counterexample: the sibling agents named `"A B"` and `"a_b"`
have the same normalized name but distinct raw names; the name-validation
loop of `CaseAgent.get_graph` accepts them instead of raising. -/
theorem normalized_collision_not_detected_cex :
    agentNamesOk [some "A B", some "a_b"] = Except.ok () ∧
    _normalize_agent_name "A B" = _normalize_agent_name "a_b" ∧
    ("A B" : String) ≠ "a_b" := ⟨rfl, by decide, by decide⟩

/-- Claim C5 (corrected): the build-time name check of `CaseAgent.get_graph`
succeeds exactly when every sibling name is present, differs from the
reserved `"LangGraph"`, and the raw (not normalized) names are pairwise
distinct; since normalization is a function, distinct normalized names do
imply distinct raw names, so construction indeed does not raise for this
reason in that case — but a collision that appears only after normalization
is not detected. -/
theorem agent_names_check_characterization (names : List (Option String)) :
    (agentNamesOk names = Except.ok () ↔
      (∀ x ∈ names, x ≠ none ∧ x ≠ some "LangGraph") ∧ names.Nodup) ∧
    ((names.map (Option.map _normalize_agent_name)).Nodup → names.Nodup) := by
  constructor
  · rw [agentNamesOk, checkAgentNames_ok_iff names []]
    constructor
    · rintro ⟨h1, h2, -⟩; exact ⟨h1, h2⟩
    · rintro ⟨h1, h2⟩
      exact ⟨h1, h2, fun n _ hn => (List.not_mem_nil n) hn⟩
  · exact List.Nodup.of_map _

/-! ## Router entrypoint (`router_entrypoint.py`) -/

def TW_SUPERVISOR_NAME : String := "tw_supervisor"

def ROUTER_NODE_NAME : String := "router_node"

/-- The slice of the graph `State` the router reads: the `metadata` dict,
modelled as an association list with string values (`next_node` holds the
node name to dispatch to). -/
structure RouterState where
  metadata : List (String × String)

/-- `dict.get(key)` on the association list: value of the first matching
key, if any. -/
def dictLookup (d : List (String × String)) (key : String) : Option String :=
  (d.find? (fun kv => kv.1 == key)).map (fun kv => kv.2)

/-- `dict.get(key, default)`. -/
def dictGet (d : List (String × String)) (key dflt : String) : String :=
  match dictLookup d key with
  | some v => v
  | none => dflt

/-- `initial_router_node`: a pass-through placeholder node. -/
def initial_router_node (state : RouterState) : RouterState := state

/-- `initial_router_sorting_condition`:
`state.metadata.get("next_node", TW_SUPERVISOR_NAME)`. -/
def initial_router_sorting_condition (state : RouterState) : String :=
  dictGet state.metadata "next_node" TW_SUPERVISOR_NAME

/-- Claim C7 (confirmed): the router entry node returns its input state
unchanged, and the dispatch condition returns `metadata["next_node"]` when
the key is present and the top-level supervisor name `"tw_supervisor"`
otherwise. -/
theorem router_entry_behavior (s : RouterState) :
    initial_router_node s = s ∧
    (∀ v, dictLookup s.metadata "next_node" = some v →
      initial_router_sorting_condition s = v) ∧
    (dictLookup s.metadata "next_node" = none →
      initial_router_sorting_condition s = TW_SUPERVISOR_NAME) ∧
    TW_SUPERVISOR_NAME = "tw_supervisor" := by
  refine ⟨rfl, fun v hv => ?_, fun h => ?_, rfl⟩
  · unfold initial_router_sorting_condition dictGet
    rw [hv]
  · unfold initial_router_sorting_condition dictGet
    rw [h]

/-! ## The supervisor re-driving loop (`GraphRunner.run_supervisor`)

Two variants exist in the source: `agents/graph_runner.py` (imported by
`server.py`) loops with no iteration ceiling, while
`agents/graph_creator_router_supervisor.py` additionally counts processed
chunks in `i` and requires `i < 5` in the loop condition. -/

/-- The kinds of LangChain message the loop inspects (`isinstance(last_message,
ToolMessage)`). -/
inductive MsgKind
  | ai
  | human
  | tool
deriving DecidableEq

/-- The interrupt value surfaced on suspension. -/
structure InterruptPayload where
  user_message : String
deriving DecidableEq

/-- One chunk yielded by `graph.stream`: either an `__interrupt__` chunk or a
node-update chunk carrying messages. -/
inductive Chunk
  | interrupt (payload : InterruptPayload)
  | node (messages : List MsgKind)
deriving DecidableEq

/-- The messages `_process_output_chunk` puts into the freshly reset result
for one chunk: an interrupt contributes the single `AIMessage` built from
`interrupt_content.user_message`; a node chunk contributes its own
messages. -/
def chunkMessages : Chunk → List MsgKind
  | Chunk.interrupt _ => [MsgKind.ai]
  | Chunk.node msgs => msgs

/-- One `graph.stream` pass of the `for chunk in ...` body: for each chunk the
result dict is reset and `last_message = result["messages"][-1]` — an
`IndexError` when the chunk contributed no message. The final chunk's last
message survives the pass. -/
def processStreamCall :
    List Chunk → Option MsgKind → Except String (Option MsgKind)
  | [], last => Except.ok last
  | c :: rest, _ =>
    match (chunkMessages c).getLast? with
    | none => Except.error "IndexError: list index out of range"
    | some m => processStreamCall rest (some m)

/-- How a run of the re-driving loop can end: the loop condition became false
after `streamCalls` calls to `graph.stream`, a chunk raised `IndexError`, or
the modelling fuel ran out while the loop still wanted to continue. -/
inductive LoopOutcome
  | finished (streamCalls : Nat)
  | indexError
  | outOfFuel
deriving DecidableEq

/-- The `while last_message is None or isinstance(last_message, ToolMessage)`
loop of `GraphRunner.run_supervisor` in `graph_runner.py`: no iteration
ceiling; `steps k` is what the `k`-th `graph.stream` call yields. `fuel`
bounds how far the embedding unrolls the (potentially non-terminating)
loop. -/
def runLoopUncapped (steps : Nat → List Chunk) (fuel k : Nat)
    (last : Option MsgKind) : LoopOutcome :=
  if last = none ∨ last = some MsgKind.tool then
    match fuel with
    | 0 => LoopOutcome.outOfFuel
    | fuel' + 1 =>
      match processStreamCall (steps k) last with
      | Except.error _ => LoopOutcome.indexError
      | Except.ok last' => runLoopUncapped steps fuel' (k + 1) last'
  else LoopOutcome.finished k

/-- The loop of `GraphRunner.run_supervisor` in
`graph_creator_router_supervisor.py`:
`while (last_message is None or isinstance(last_message, ToolMessage)) and i < 5`,
where `i` is incremented once per processed chunk. -/
def runLoopCapped (steps : Nat → List Chunk) (fuel k i : Nat)
    (last : Option MsgKind) : LoopOutcome :=
  if (last = none ∨ last = some MsgKind.tool) ∧ i < 5 then
    match fuel with
    | 0 => LoopOutcome.outOfFuel
    | fuel' + 1 =>
      match processStreamCall (steps k) last with
      | Except.error _ => LoopOutcome.indexError
      | Except.ok last' =>
        runLoopCapped steps fuel' (k + 1) (i + (steps k).length) last'
  else LoopOutcome.finished k

/-- A step sequence whose first six `graph.stream` passes each end in a
transient `ToolMessage` and whose seventh ends in an `AIMessage`. -/
def sixToolSteps (k : Nat) : List Chunk :=
  if k < 6 then [Chunk.node [MsgKind.tool]] else [Chunk.node [MsgKind.ai]]

/-- Claim C3, counterexample: the `run_supervisor` loop of `graph_runner.py`
has no retry ceiling — on a sequence of six tool-terminated passes it
performs 7 graph executions (more than 5), and on an all-tool sequence it is
still looping after 50 allotted passes, so it does not terminate for every
possible sequence of step results. -/
theorem run_supervisor_no_ceiling_cex :
    runLoopUncapped sixToolSteps 10 0 none = LoopOutcome.finished 7 ∧
    ¬(7 ≤ 5) ∧
    runLoopUncapped (fun _ => [Chunk.node [MsgKind.tool]]) 50 0 none
      = LoopOutcome.outOfFuel := by decide

theorem processStreamCall_interrupt (cs : List Chunk) (p : InterruptPayload)
    (last : Option MsgKind) (h : ∀ c ∈ cs, chunkMessages c ≠ []) :
    processStreamCall (cs ++ [Chunk.interrupt p]) last
      = Except.ok (some MsgKind.ai) := by
  induction cs generalizing last with
  | nil => rfl
  | cons c cs ih =>
    have hc : chunkMessages c ≠ [] := h c (List.mem_cons_self c cs)
    obtain ⟨m, hm⟩ : ∃ m, (chunkMessages c).getLast? = some m := by
      cases hl : chunkMessages c with
      | nil => exact absurd hl hc
      | cons y ys =>
        exact ⟨(y :: ys).getLast (by simp), List.getLast?_eq_getLast _ _⟩
    simp only [List.cons_append, processStreamCall, hm]
    exact ih (some m) (fun c2 hc2 => h c2 (List.mem_cons_of_mem c hc2))

theorem runLoopCapped_enough_fuel (steps : Nat → List Chunk)
    (hne : ∀ j, 1 ≤ (steps j).length) :
    ∀ fuel k i last, 5 ≤ i + fuel →
      runLoopCapped steps fuel k i last ≠ LoopOutcome.outOfFuel ∧
      (∀ m, runLoopCapped steps fuel k i last = LoopOutcome.finished m →
        m ≤ k + (5 - i)) := by
  intro fuel
  induction fuel with
  | zero =>
    intro k i last hfuel
    have hi5 : ¬(i < 5) := by omega
    rw [runLoopCapped, if_neg (fun hand => hi5 hand.2)]
    exact ⟨fun h => LoopOutcome.noConfusion h,
      fun m hm => by
        have := LoopOutcome.finished.inj hm
        omega⟩
  | succ fuel ih =>
    intro k i last hfuel
    by_cases hcond : (last = none ∨ last = some MsgKind.tool) ∧ i < 5
    · rw [runLoopCapped, if_pos hcond]
      cases hcall : processStreamCall (steps k) last with
      | error e =>
        exact ⟨fun h => LoopOutcome.noConfusion h,
          fun m hm => LoopOutcome.noConfusion hm⟩
      | ok last2 =>
        have hlen := hne k
        have hrec := ih (k + 1) (i + (steps k).length) last2 (by omega)
        refine ⟨hrec.1, fun m hm => ?_⟩
        have := hrec.2 m hm
        omega
    · rw [runLoopCapped, if_neg hcond]
      exact ⟨fun h => LoopOutcome.noConfusion h,
        fun m hm => by
          have := LoopOutcome.finished.inj hm
          omega⟩

/-- Claim C3 (corrected): the capped `run_supervisor` variant of
`graph_creator_router_supervisor.py` terminates within 5 graph executions
whenever every `graph.stream` pass yields at least one chunk, and in both
variants a suspension stops the loop immediately (the interrupt chunk's
`AIMessage` falsifies the loop condition); the `graph_runner.py` variant
used by the server, however, has no iteration ceiling and need not
terminate (see the counterexample). -/
theorem run_supervisor_loop_amended (steps : Nat → List Chunk)
    (hne : ∀ j, 1 ≤ (steps j).length) :
    runLoopCapped steps 5 0 0 none ≠ LoopOutcome.outOfFuel ∧
    (∀ m, runLoopCapped steps 5 0 0 none = LoopOutcome.finished m → m ≤ 5) ∧
    (∀ fuel k i last cs p,
      steps k = cs ++ [Chunk.interrupt p] →
      (∀ c ∈ cs, chunkMessages c ≠ []) →
      (last = none ∨ last = some MsgKind.tool) → i < 5 →
      runLoopCapped steps (fuel + 1) k i last = LoopOutcome.finished (k + 1)) ∧
    (∀ fuel k, runLoopUncapped steps fuel k (some MsgKind.ai)
      = LoopOutcome.finished k) := by
  have hbase := runLoopCapped_enough_fuel steps hne 5 0 0 none (by omega)
  refine ⟨hbase.1, fun m hm => by have := hbase.2 m hm; omega,
    fun fuel k i last cs p hsteps hcs hcond hi => ?_, fun fuel k => ?_⟩
  · have hcall : processStreamCall (steps k) last
        = Except.ok (some MsgKind.ai) := by
      rw [hsteps]
      exact processStreamCall_interrupt cs p last hcs
    have hstep : runLoopCapped steps (fuel + 1) k i last
        = runLoopCapped steps fuel (k + 1) (i + (steps k).length)
            (some MsgKind.ai) := by
      rw [runLoopCapped.eq_def, if_pos ⟨hcond, hi⟩]
      show (match processStreamCall (steps k) last with
        | Except.error _ => LoopOutcome.indexError
        | Except.ok last' =>
          runLoopCapped steps fuel (k + 1) (i + (steps k).length) last') = _
      rw [hcall]
    rw [hstep, runLoopCapped.eq_def,
      if_neg (by rintro ⟨h1 | h1, -⟩ <;> simp at h1)]
  · rw [runLoopUncapped.eq_def,
      if_neg (by rintro (h1 | h1) <;> simp at h1)]

/-- Claim C3, witness: the amended loop bounds at a concrete step sequence
that immediately produces an `AIMessage`. -/
theorem run_supervisor_loop_amended_witness :
    runLoopCapped (fun _ => [Chunk.node [MsgKind.ai]]) 5 0 0 none
      ≠ LoopOutcome.outOfFuel :=
  (run_supervisor_loop_amended (fun _ => [Chunk.node [MsgKind.ai]])
    (fun _ => Nat.le_refl 1)).1

/-! ## Tool-call extraction (`GraphRunner._extract_tool_calls`) -/

/-- The parameter dict of a tool call, abstracted to string keys/values. -/
def ParamDict : Type := List (String × String)

instance : DecidableEq ParamDict := by
  unfold ParamDict
  infer_instance

/-- `ToolMessageInfo` from `base_message_type.py`, restricted to the fields
`_extract_tool_calls` reads. `name` is `Option` because the code guards
`tool_message_info.name is not None`. -/
structure ToolMessageInfo where
  name : Option String
  content : String
  tool_call_id : String
  id : String
  parameters : Option ParamDict
deriving DecidableEq

/-- An element of the aggregated `tools_called` list as the runner receives
it: either an actual `ToolMessageInfo` or a value of some other runtime
type (whose type name the error message reports). -/
inductive RunnerListEntry
  | info (t : ToolMessageInfo)
  | other (typeName : String)
deriving DecidableEq

/-- The dict `{tool_name, tool_input, tool_id}` appended per kept record. -/
structure ToolCallDict where
  tool_name : String
  tool_input : Option ParamDict
  tool_id : String
deriving DecidableEq

/-- `GraphRunner._extract_tool_calls`: raise for a non-`ToolMessageInfo`
element; keep a record when its name is non-null and does not start with
`SUBAGENT_TOOL_NAME_PREFIX`; preserve order. -/
def _extract_tool_calls : List RunnerListEntry → Except String (List ToolCallDict)
  | [] => Except.ok []
  | RunnerListEntry.other tn :: _ =>
    Except.error ("Expected ToolMessageInfo object, got " ++ tn)
  | RunnerListEntry.info t :: rest =>
    match t.name with
    | some n =>
      if n.startsWith SUBAGENT_TOOL_NAME_PREFIX then _extract_tool_calls rest
      else
        (_extract_tool_calls rest).map
          (fun l => { tool_name := n, tool_input := t.parameters, tool_id := t.tool_call_id } :: l)
    | none => _extract_tool_calls rest

/-- The record kept for one `ToolMessageInfo`, if any: the claim's selection
predicate and field mapping. -/
def keepRecord (t : ToolMessageInfo) : Option ToolCallDict :=
  match t.name with
  | some n =>
    if n.startsWith SUBAGENT_TOOL_NAME_PREFIX then none
    else some { tool_name := n, tool_input := t.parameters, tool_id := t.tool_call_id }
  | none => none

/-- Whether an entry is an actual `ToolMessageInfo`. -/
def isInfo : RunnerListEntry → Bool
  | RunnerListEntry.info _ => true
  | RunnerListEntry.other _ => false

theorem extract_tool_calls_all_info (ts : List ToolMessageInfo) :
    _extract_tool_calls (ts.map RunnerListEntry.info)
      = Except.ok (ts.filterMap keepRecord) := by
  induction ts with
  | nil => rfl
  | cons t ts ih =>
    cases hn : t.name with
    | none =>
      simp only [List.map_cons, _extract_tool_calls, hn,
        List.filterMap_cons, keepRecord, ih]
    | some n =>
      by_cases hpre : n.startsWith SUBAGENT_TOOL_NAME_PREFIX
      · simp only [List.map_cons, _extract_tool_calls, hn,
          List.filterMap_cons, keepRecord, ih, if_pos hpre]
      · simp only [List.map_cons, _extract_tool_calls, hn,
          List.filterMap_cons, keepRecord, ih, if_neg hpre, Except.map]

theorem extract_tool_calls_error_of_bad_entry (entries : List RunnerListEntry)
    (h : ∃ e ∈ entries, isInfo e = false) :
    ∃ msg, _extract_tool_calls entries = Except.error msg := by
  induction entries with
  | nil =>
    obtain ⟨e, he, -⟩ := h
    exact absurd he (List.not_mem_nil e)
  | cons e rest ih =>
    cases e with
    | other tn =>
      exact ⟨"Expected ToolMessageInfo object, got " ++ tn, rfl⟩
    | info t =>
      obtain ⟨e2, he2, hbad⟩ := h
      rcases List.mem_cons.mp he2 with he2 | he2
      · rw [he2] at hbad
        cases hbad
      · obtain ⟨msg, hmsg⟩ := ih ⟨e2, he2, hbad⟩
        refine ⟨msg, ?_⟩
        cases hn : t.name with
        | none =>
          simp only [_extract_tool_calls, hn]
          exact hmsg
        | some n =>
          by_cases hpre : n.startsWith SUBAGENT_TOOL_NAME_PREFIX
          · simp only [_extract_tool_calls, hn, if_pos hpre]
            exact hmsg
          · simp only [_extract_tool_calls, hn, if_neg hpre, hmsg,
              Except.map]

/-- Claim C10 (confirmed): on a list of `ToolMessageInfo` records,
`_extract_tool_calls` returns exactly the records with a non-null name not
starting with `transfer_to_`, in order, mapped to
`{tool_name, tool_input, tool_id}`; it raises when some element is not a
`ToolMessageInfo`, and the sub-agent prefix it filters is `transfer_to_`. -/
theorem extract_tool_calls_spec (ts : List ToolMessageInfo)
    (entries : List RunnerListEntry) :
    _extract_tool_calls (ts.map RunnerListEntry.info)
        = Except.ok (ts.filterMap keepRecord) ∧
    ((∃ e ∈ entries, isInfo e = false) →
      ∃ msg, _extract_tool_calls entries = Except.error msg) ∧
    SUBAGENT_TOOL_NAME_PREFIX = "transfer_to_" :=
  ⟨extract_tool_calls_all_info ts,
    extract_tool_calls_error_of_bad_entry entries, rfl⟩

/-! ## The `/agent_response` dispatch (`server.py`) -/

/-- The initial input `process_agent_response` builds for the graph: a
`Command(resume=...)` for `message_type="agent"`, a fresh human message plus
metadata for `message_type="user"`. -/
inductive InitialInput
  | resume (messageText : String)
  | newMessage (messageText discussionId : String)
deriving DecidableEq

/-- The `run_supervisor_with_graph` closure of `process_agent_response`: on
`"agent"` and `"user"` it builds the matching initial input and hands it to
the graph runner (`runSupervisor`, abstract here); any other
`message_type` raises `ValueError` before the runner is ever invoked. -/
def run_supervisor_with_graph {ρ : Type} (messageType messageText
    discussionId : String) (runSupervisor : InitialInput → ρ) :
    Except String ρ :=
  if messageType = "agent" then
    Except.ok (runSupervisor (InitialInput.resume messageText))
  else if messageType = "user" then
    Except.ok (runSupervisor
      (InitialInput.newMessage messageText discussionId))
  else
    Except.error "Invalid message type. Please use 'user' or 'agent'."

/-- Claim C9 (confirmed): a request whose `message_type` is neither `"user"`
nor `"agent"` is rejected with the `ValueError` before any graph step runs,
and no graph execution takes place: the outcome is the error and is
independent of what the graph runner would compute. -/
theorem invalid_message_type_rejected {ρ : Type} (mt mtext did : String)
    (h1 : mt ≠ "user") (h2 : mt ≠ "agent")
    (r1 r2 : InitialInput → ρ) :
    run_supervisor_with_graph mt mtext did r1
        = Except.error "Invalid message type. Please use 'user' or 'agent'." ∧
    run_supervisor_with_graph mt mtext did r1
      = run_supervisor_with_graph mt mtext did r2 := by
  have hgoal : ∀ r : InitialInput → ρ, run_supervisor_with_graph mt mtext did r
      = Except.error "Invalid message type. Please use 'user' or 'agent'." := by
    intro r
    unfold run_supervisor_with_graph
    rw [if_neg h2, if_neg h1]
  exact ⟨hgoal r1, (hgoal r1).trans (hgoal r2).symm⟩

/-- Claim C9, witness: the rejection at the concrete invalid type
`"banana"`. -/
theorem invalid_message_type_rejected_witness :
    run_supervisor_with_graph "banana" "hi" "d1" (fun _ => (0 : Nat))
        = Except.error "Invalid message type. Please use 'user' or 'agent'." ∧
    run_supervisor_with_graph "banana" "hi" "d1" (fun _ => (0 : Nat))
      = run_supervisor_with_graph "banana" "hi" "d1" (fun _ => (1 : Nat)) :=
  invalid_message_type_rejected "banana" "hi" "d1" (by decide) (by decide) _ _

/-! ## Administrative reset (`db/state_manager.py`) -/

def DB_CHECKPOINT_PATH : String := "checkpoints.sqlite"

/-- The checkpoint database file's contents, viewed as the per-discussion
checkpoint records it stores: `(discussion_id, size in bytes)` pairs. -/
structure CheckpointDB where
  records : List (String × Nat)
deriving DecidableEq

/-- Total file size: the records' sizes together. -/
def dbFileSize (db : CheckpointDB) : Nat := (db.records.map Prod.snd).sum

/-- The slice of the filesystem `reset_state` touches: the checkpoint file,
absent (`none`) or present with contents. -/
structure FileSystem where
  checkpointFile : Option CheckpointDB
deriving DecidableEq

/-- The dict `reset_state` returns: `success` carries the message, the
deleted path and `file_size_bytes`; `failure` carries the message. -/
inductive ResetOutcome
  | success (message deletedFile : String) (fileSizeBytes : Nat)
  | failure (message : String)
deriving DecidableEq

/-- `reset_state` from `db/state_manager.py`: when the checkpoint file does
not exist, fail; otherwise record the file size, delete the whole file, and
report success. The `discussion_id` only decorates the message (Python's
truthiness makes the empty string behave like no id). -/
def reset_state (discussionId : Option String) (fs : FileSystem) :
    FileSystem × ResetOutcome :=
  match fs.checkpointFile with
  | none =>
    (fs, ResetOutcome.failure
      ("Database file not found: " ++ DB_CHECKPOINT_PATH))
  | some db =>
    ({ checkpointFile := none },
      ResetOutcome.success
        (match discussionId with
          | some d =>
            if d ≠ "" then
              "Successfully reset state by deleting the database file"
                ++ " (requested for discussion ID: " ++ d ++ ")"
            else "Successfully reset state by deleting the database file"
          | none => "Successfully reset state by deleting the database file")
        DB_CHECKPOINT_PATH (dbFileSize db))

/-- Modelled from the spec: the reset behavior the specification describes —
with a `discussion_id` given, delete only that discussion's checkpoint
records (reporting the size of the removed data) and keep the rest; with no
id, wipe the whole file. This definition follows the spec's words;
`reset_state` follows the source. -/
def reset_state_spec (discussionId : Option String) (fs : FileSystem) :
    FileSystem × ResetOutcome :=
  match fs.checkpointFile with
  | none =>
    (fs, ResetOutcome.failure
      ("Database file not found: " ++ DB_CHECKPOINT_PATH))
  | some db =>
    match discussionId with
    | some d =>
      ({ checkpointFile :=
          some { records := db.records.filter (fun r => r.1 ≠ d) } },
        ResetOutcome.success
          "Successfully reset state by deleting the discussion's checkpoint"
          DB_CHECKPOINT_PATH
          (((db.records.filter (fun r => r.1 = d)).map Prod.snd).sum))
    | none =>
      ({ checkpointFile := none },
        ResetOutcome.success
          "Successfully reset state by deleting the database file"
          DB_CHECKPOINT_PATH (dbFileSize db))

/-- Claim C1, counterexample: resetting with `discussion_id = "d1"` on a
store holding checkpoints for `"d1"` and `"d2"` deletes the whole file —
`"d2"`'s data included — where the claim predicts only `"d1"`'s checkpoint
is removed. -/
theorem reset_state_wipes_everything_cex :
    (reset_state (some "d1")
        { checkpointFile := some { records := [("d1", 10), ("d2", 20)] } }
      ).1.checkpointFile = none ∧
    (reset_state_spec (some "d1")
        { checkpointFile := some { records := [("d1", 10), ("d2", 20)] } }
      ).1.checkpointFile = some { records := [("d2", 20)] } ∧
    (reset_state (some "d1")
        { checkpointFile := some { records := [("d1", 10), ("d2", 20)] } }).1
      ≠ (reset_state_spec (some "d1")
        { checkpointFile := some { records := [("d1", 10), ("d2", 20)] } }).1
    := by decide

/-- Claim C1 (corrected): `reset_state` deletes the entire checkpoint file
whether or not a `discussion_id` is given — the id only decorates the
success message; the success result carries the size in bytes of the whole
removed file, and the operation fails exactly when the checkpoint store does
not exist (leaving the filesystem unchanged). -/
theorem reset_state_behavior (id2 : Option String) (fs : FileSystem) :
    (fs.checkpointFile = none →
      reset_state id2 fs
        = (fs, ResetOutcome.failure
            ("Database file not found: " ++ DB_CHECKPOINT_PATH))) ∧
    (∀ db, fs.checkpointFile = some db →
      (reset_state id2 fs).1.checkpointFile = none ∧
      ∃ msg, (reset_state id2 fs).2
        = ResetOutcome.success msg DB_CHECKPOINT_PATH (dbFileSize db)) := by
  constructor
  · intro h
    unfold reset_state
    rw [h]
  · intro db h
    unfold reset_state
    rw [h]
    exact ⟨rfl, _, rfl⟩

end TwAgents
